import Mathlib

/-!
Verification of the CoreDNS server core (zone dispatch in
`core/dnsserver/server.go`, and the proxy client, pools and wire codec in
the `proxy` package) against its natural-language specification.

Names are embedded as `List Char`, read as the bytes of the Go string
(DNS names in this code are ASCII presentation names).  Go loops over an
index are embedded either structurally over the remaining list or with an
explicit fuel argument; `none` from a fueled function means the original
loop does not terminate within that fuel.
-/

set_option maxHeartbeats 1000000

/-! ## Server zone dispatch (core/dnsserver/server.go) -/

/-- `dns.NextLabel` (external miekg/dns library, `labels.go`): scan from
index `i` while `i < len(s) - 1`; a backslash toggles the quote flag, an
unquoted dot returns `(i + 1, false)`, running off the end returns
`(i + 1, true)`.  The list argument is `s.drop i`, kept in lockstep with
the index. -/
def nextLabelAux : List Char → Nat → Bool → Nat × Bool
  | c :: c2 :: rest, i, quote =>
    if c = '\\' then nextLabelAux (c2 :: rest) (i + 1) (!quote)
    else if c = '.' then
      (if quote then nextLabelAux (c2 :: rest) (i + 1) false else (i + 1, false))
    else nextLabelAux (c2 :: rest) (i + 1) false
  | _, i, _ => (i + 1, true)

/-- `dns.NextLabel(q, off)`. -/
def nextLabel (q : List Char) (off : Nat) : Nat × Bool :=
  nextLabelAux (q.drop off) off false

/-- The byte-wise lower-casing done into the scratch buffer `b` in
`ServeDNS`: `if b[i] >= 'A' && b[i] <= 'Z' { b[i] |= ('a' - 'A') }`. -/
def lowerChar (c : Char) : Char :=
  if 'A' ≤ c ∧ c ≤ 'Z' then Char.ofNat (c.toNat + 32) else c

/-- The lower-cased candidate `string(b[:l])` built from `q[off:]`. -/
def lowerName (q : List Char) : List Char := q.map lowerChar

/-- The zone registry `s.zones : map[string]zone`, embedded as an
association list from registered names to zone identifiers. -/
def zlookup : List (List Char × Nat) → List Char → Option Nat
  | [], _ => none
  | (k, v) :: rest, q => if k = q then some v else zlookup rest q

/-- The suffix-walking loop of `ServeDNS` (server.go lines 221-244),
returning the zone whose chain is invoked, or `none` when the loop breaks
without serving.  On a registry hit the chain is invoked only when the
query type is not DS (type 43); otherwise the walk continues with
`dns.NextLabel`.  `fuel` bounds the loop; `q.length + 1` always
suffices (see `dispatchLoopF_eq_findSome`). -/
def dispatchLoopF (zones : List (List Char × Nat)) (q : List Char) (isDS : Bool) :
    Nat → Nat → Option Nat
  | 0, _ => none
  | fuel + 1, off =>
    match zlookup zones (lowerName (q.drop off)) with
    | some z =>
      if isDS then
        (if (nextLabel q off).2 then none
         else dispatchLoopF zones q isDS fuel (nextLabel q off).1)
      else some z
    | none =>
      if (nextLabel q off).2 then none
      else dispatchLoopF zones q isDS fuel (nextLabel q off).1

/-- The full suffix walk from the start of the query name. -/
def dispatchLoop (zones : List (List Char × Nat)) (q : List Char) (isDS : Bool) : Option Nat :=
  dispatchLoopF zones q isDS (q.length + 1) 0

/-- The sequence of offsets the loop visits: the start of each label
suffix, from the full name toward the root. -/
def candidateOffsetsF (q : List Char) : Nat → Nat → List Nat
  | 0, off => [off]
  | fuel + 1, off =>
    if (nextLabel q off).2 then [off]
    else off :: candidateOffsetsF q fuel (nextLabel q off).1

/-- All candidate offsets for a query name. -/
def candidateOffsets (q : List Char) : List Nat :=
  candidateOffsetsF q (q.length + 1) 0

/-- Result of invoking a zone chain: a normal response code, or a panic
escaping the chain member. -/
inductive ChainRes
  | normal (rcode : Nat)
  | panicked
deriving DecidableEq

/-- `RcodeNoClientWrite` (server.go lines 273-285): ServerFailure (2),
Refused (5), FormatError (1), NotImplemented (4). -/
def rcodeNoClientWrite (rc : Nat) : Bool :=
  rc == 2 || rc == 5 || rc == 1 || rc == 4

/-- Observable behaviour of one `ServeDNS` call: whether the bad-EDNS
early exit fired, which zone chains were invoked, and which rcodes the
dispatcher itself wrote through `DefaultErrorFunc` (including the
write done by the `recover` boundary). -/
structure Obs where
  badVers : Bool
  invoked : List Nat
  errWrites : List Nat
deriving DecidableEq

/-- An inbound request: question name, question type, and whether the
`middleware.Edns0Version` check passes. -/
structure DnsRequest where
  qname : List Char
  qtype : Nat
  ednsOk : Bool

/-- Invoking the chain of zone `z` inside the dispatcher: a normal rcode
in `RcodeNoClientWrite` makes the dispatcher write the error response; a
panic is caught by the deferred `recover` and turned into a
ServerFailure (2) write. -/
def runZone (hs : Nat → ChainRes) (z : Nat) : Obs :=
  match hs z with
  | ChainRes.normal rc => ⟨false, [z], if rcodeNoClientWrite rc then [rc] else []⟩
  | ChainRes.panicked => ⟨false, [z], [2]⟩

/-- `Server.ServeDNS` (server.go lines 198-258): reject bad EDNS versions
at once; otherwise walk the name, invoke the first non-skipped match,
fall back to the root catch-all, and finally answer REFUSED (5). -/
def serveDNS (zones : List (List Char × Nat)) (hs : Nat → ChainRes) (r : DnsRequest) : Obs :=
  if r.ednsOk = true then
    match dispatchLoop zones r.qname (decide (r.qtype = 43)) with
    | some z => runZone hs z
    | none =>
      match zlookup zones ['.'] with
      | some z => runZone hs z
      | none => ⟨false, [], [5]⟩
  else ⟨true, [], []⟩

/-! ## Helper lemmas about the label walk -/

theorem nextLabelAux_fst_gt : ∀ (cs : List Char) (i : Nat) (b : Bool),
    i < (nextLabelAux cs i b).1
  | [], i, b => by simp [nextLabelAux]
  | [c], i, b => by simp [nextLabelAux]
  | c :: c2 :: rest, i, b => by
    unfold nextLabelAux
    by_cases h1 : c = '\\'
    · simp only [if_pos h1]
      have h := nextLabelAux_fst_gt (c2 :: rest) (i + 1) (!b)
      omega
    · simp only [if_neg h1]
      by_cases h2 : c = '.'
      · simp only [if_pos h2]
        by_cases h3 : b
        · simp only [if_pos h3]
          have h := nextLabelAux_fst_gt (c2 :: rest) (i + 1) false
          omega
        · simp only [if_neg h3]
          omega
      · simp only [if_neg h2]
        have h := nextLabelAux_fst_gt (c2 :: rest) (i + 1) false
        omega

theorem nextLabelAux_false_lt : ∀ (cs : List Char) (i : Nat) (b : Bool),
    (nextLabelAux cs i b).2 = false → (nextLabelAux cs i b).1 < i + cs.length
  | [], i, b => by simp [nextLabelAux]
  | [c], i, b => by simp [nextLabelAux]
  | c :: c2 :: rest, i, b => by
    unfold nextLabelAux
    by_cases h1 : c = '\\'
    · simp only [if_pos h1]
      intro h
      have hrec := nextLabelAux_false_lt (c2 :: rest) (i + 1) (!b) h
      simp only [List.length_cons] at *
      omega
    · simp only [if_neg h1]
      by_cases h2 : c = '.'
      · simp only [if_pos h2]
        by_cases h3 : b
        · simp only [if_pos h3]
          intro h
          have hrec := nextLabelAux_false_lt (c2 :: rest) (i + 1) false h
          simp only [List.length_cons] at *
          omega
        · simp only [if_neg h3]
          intro _
          simp only [List.length_cons]
          omega
      · simp only [if_neg h2]
        intro h
        have hrec := nextLabelAux_false_lt (c2 :: rest) (i + 1) false h
        simp only [List.length_cons] at *
        omega

theorem nextLabel_gt (q : List Char) (off : Nat) : off < (nextLabel q off).1 :=
  nextLabelAux_fst_gt _ _ _

theorem nextLabel_lt (q : List Char) (off : Nat)
    (h : (nextLabel q off).2 = false) : (nextLabel q off).1 < q.length := by
  unfold nextLabel at h ⊢
  by_cases ho : off ≤ q.length
  · have h2 := nextLabelAux_false_lt (q.drop off) off false h
    rw [List.length_drop] at h2
    by_cases hq : off = q.length
    · exfalso
      have hd : q.drop off = [] := by
        apply List.drop_eq_nil_of_le
        omega
      rw [hd] at h
      simp [nextLabelAux] at h
    · omega
  · exfalso
    have hd : q.drop off = [] := by
      apply List.drop_eq_nil_of_le
      omega
    rw [hd] at h
    simp [nextLabelAux] at h

theorem dispatchLoopF_ds (zones : List (List Char × Nat)) (q : List Char) :
    ∀ (fuel off : Nat), dispatchLoopF zones q true fuel off = none := by
  intro fuel
  induction fuel with
  | zero => intro off; rfl
  | succ fuel ih =>
    intro off
    unfold dispatchLoopF
    cases zlookup zones (lowerName (q.drop off)) with
    | some z => simp [ih]
    | none => simp [ih]

theorem dispatchLoopF_eq_findSome (zones : List (List Char × Nat)) (q : List Char) :
    ∀ (fuel off : Nat), q.length + 1 ≤ fuel + off → off ≤ q.length →
    dispatchLoopF zones q false fuel off =
      (candidateOffsetsF q fuel off).findSome? (fun o => zlookup zones (lowerName (q.drop o))) := by
  intro fuel
  induction fuel with
  | zero => intro off h1 h2; omega
  | succ fuel ih =>
    intro off h1 h2
    unfold dispatchLoopF candidateOffsetsF
    cases hz : zlookup zones (lowerName (q.drop off)) with
    | some z =>
      by_cases hr : (nextLabel q off).2
      · simp [hr, List.findSome?, hz]
      · simp [hr, List.findSome?, hz]
    | none =>
      by_cases hr : (nextLabel q off).2
      · simp [hr, List.findSome?, hz]
      · have hgt := nextLabel_gt q off
        have hlt := nextLabel_lt q off (by simp [hr])
        simp only [hr, if_false, List.findSome?]
        rw [hz]
        simp only [if_neg (by simp [hr] : ¬(nextLabel q off).2 = true)]
        exact ih (nextLabel q off).1 (by omega) (by omega)

theorem candidateOffsetsF_ge (q : List Char) :
    ∀ (fuel off x : Nat), x ∈ candidateOffsetsF q fuel off → off ≤ x := by
  intro fuel
  induction fuel with
  | zero =>
    intro off x hx
    simp [candidateOffsetsF] at hx
    omega
  | succ fuel ih =>
    intro off x hx
    unfold candidateOffsetsF at hx
    by_cases hr : (nextLabel q off).2
    · simp [hr] at hx
      omega
    · simp [hr] at hx
      rcases hx with rfl | hx
      · omega
      · have h1 := ih _ _ hx
        have h2 := nextLabel_gt q off
        omega

theorem candidateOffsetsF_pairwise (q : List Char) :
    ∀ (fuel off : Nat), (candidateOffsetsF q fuel off).Pairwise (· < ·) := by
  intro fuel
  induction fuel with
  | zero => intro off; simp [candidateOffsetsF]
  | succ fuel ih =>
    intro off
    unfold candidateOffsetsF
    cases hr : (nextLabel q off).2 with
    | true => simp [hr]
    | false =>
      simp only [hr, Bool.false_eq_true, if_false, List.pairwise_cons]
      refine ⟨fun x hx => ?_, ih _⟩
      have h1 := candidateOffsetsF_ge q fuel (nextLabel q off).1 x hx
      have h2 := nextLabel_gt q off
      omega

theorem findSome_of_forall_none {α β : Type} (f : α → Option β) :
    ∀ (l : List α), (∀ x ∈ l, f x = none) → l.findSome? f = none
  | [], _ => rfl
  | a :: t, h => by
    have ha : f a = none := h a (List.mem_cons_self a t)
    have ht := findSome_of_forall_none f t (fun x hx => h x (List.mem_cons_of_mem a hx))
    simp [List.findSome?, ha, ht]

theorem findSome_first (f : Nat → Option Nat) :
    ∀ (l : List Nat), l.Pairwise (· < ·) → ∀ (off z : Nat), off ∈ l → f off = some z →
      (∀ o ∈ l, o < off → f o = none) → l.findSome? f = some z := by
  intro l
  induction l with
  | nil => intro _ off z hoff; simp at hoff
  | cons a t ih =>
    intro hp off z hoff hfz hmiss
    rw [List.pairwise_cons] at hp
    by_cases ha : off = a
    · subst ha
      simp [List.findSome?, hfz]
    · have hofft : off ∈ t := by
        rcases List.mem_cons.mp hoff with h | h
        · exact absurd h ha
        · exact h
      have haoff : a < off := hp.1 off hofft
      have hfa : f a = none := hmiss a (List.mem_cons_self a t) haoff
      have ht := ih hp.2 off z hofft hfz (fun o ho hlt => hmiss o (List.mem_cons_of_mem a ho) hlt)
      simp [List.findSome?, hfa, ht]

/-! ## Proxy client, pools and wire codec (proxy package) -/

/-- Errors surfaced by the proxy codec and client, mirroring the error
values used in the source (`dns.ErrId`, `dns.ErrTruncated`,
`dns.ErrShortRead`, `io.ErrShortBuffer`, the "message too large" error,
`dns.ErrConnEmpty`, and a generic transport error). -/
inductive PErr
  | errId
  | errTruncated
  | errShortRead
  | errShortBuffer
  | errTooLarge
  | errConnEmpty
  | errTransport
deriving DecidableEq

/-- A DNS message as the proxy sees it: header id and truncation bit,
the compression flag, the question tuple, and the EDNS0 advertisement. -/
structure Msg where
  id : Nat
  truncated : Bool
  compress : Bool
  qname : String
  qtype : Nat
  qcls : Nat
  hasEdns : Bool
  udpSize : Nat
deriving DecidableEq

/-- Abbreviated, faithful fragment of the external `dns.TypeToString`
table (the mechanism of the lookup is what matters; missing entries
behave as absent map keys). -/
def typeToString (t : Nat) : Option String :=
  if t = 1 then some "A"
  else if t = 2 then some "NS"
  else if t = 5 then some "CNAME"
  else if t = 6 then some "SOA"
  else if t = 12 then some "PTR"
  else if t = 15 then some "MX"
  else if t = 16 then some "TXT"
  else if t = 28 then some "AAAA"
  else if t = 43 then some "DS"
  else none

/-- Abbreviated, faithful fragment of the external `dns.ClassToString`
table. -/
def classToString (c : Nat) : Option String :=
  if c = 1 then some "IN"
  else if c = 3 then some "CH"
  else if c = 4 then some "HS"
  else none

/-- The singleflight key built in `Client.Exchange` (part_003 lines
60-76): `m.Question[0].Name + t + cl`, where `t` and `cl` fall back to
"nop" when the type or class is not in the table.  The name is used as
is, without normalization. -/
def dedupKey (m : Msg) : String :=
  m.qname ++ (typeToString m.qtype).getD "nop" ++ (classToString m.qcls).getD "nop"

/-- A connection pool as `newPool`/`pool.NewChannelPool` configures it:
the network its dialer passes to `net.DialTimeout`, the upstream
address, and the initial/maximum connection counts. -/
structure Pool where
  network : String
  address : String
  initialConns : Nat
  maxConns : Nat
deriving DecidableEq

/-- `NewUDPPool` (pool source, server.go part lines 305-310): 2 initial
connections, 10 maximum, dialer built with `dialTimeout("udp", address)`. -/
def NewUDPPool (address : String) : Pool := ⟨"udp", address, 2, 10⟩

/-- `NewTCPPool` (lines 312-317): 1 initial connection, 5 maximum.  The
source passes "udp" to `dialTimeout` here as well. -/
def NewTCPPool (address : String) : Pool := ⟨"udp", address, 1, 5⟩

/-- An upstream host: one stream pool and one datagram pool. -/
structure UpstreamHost where
  tcpPool : Pool
  udpPool : Pool

/-- Modelled from the spec: the construction of an `UpstreamHost` is not
under src/ (only the pool constructors and the selecting caller are).
Spec section 3 pairs an upstream address with one stream-connection pool
and one datagram-connection pool, which `NewTCPPool` and `NewUDPPool`
build for that address. -/
def mkUpstreamHost (address : String) : UpstreamHost :=
  ⟨NewTCPPool address, NewUDPPool address⟩

/-- The pool selection in `Client.ServeDNS` (part_003 lines 36-42):
`if request.Proto(w) == "tcp" { co, _ = u.TCPPool.Get() } else
{ co, _ = u.UDPPool.Get() }`. -/
def selectPool (proto : String) (u : UpstreamHost) : Pool :=
  if proto = "tcp" then u.tcpPool else u.udpPool

/-- What `ReadMsg` can hand back to `Client.exchange`: a message with no
error, a partially unpacked message together with `dns.ErrTruncated`, or
no message and a hard error. -/
inductive ReadRes
  | ok (m : Msg)
  | truncErr (m : Msg)
  | fail (e : PErr)

/-- `Client.exchange` (part_003 lines 83-103) at the level of its
observable result, parameterized by the outcome of the write and the
read: on a write error return it; otherwise take `ReadMsg`'s result and,
only when its error is nil, replace the error by `dns.ErrId` if the
reply id differs from the request id.  Go returns the reply alongside
the error, so both components are kept. -/
def exchangeResult (reqId : Nat) (writeErr : Option PErr) (rr : ReadRes) :
    Option Msg × Option PErr :=
  match writeErr with
  | some e => (none, some e)
  | none =>
    match rr with
    | ReadRes.ok m => if m.id = reqId then (some m, none) else (some m, some PErr.errId)
    | ReadRes.truncErr m => (some m, some PErr.errTruncated)
    | ReadRes.fail e => (none, some e)

/-- `Client.ServeDNS` after the pool get (part_003 lines 44-58): suppress
the error when the reply is truncated; then a remaining error is
returned with no reply, otherwise the reply is marked compressible and
its id rewritten to the request id.  The `(none, none)` fallthrough is
unreachable from `exchangeResult` (a nil error implies a reply). -/
def clientServeDNS (reqId : Nat) (writeErr : Option PErr) (rr : ReadRes) :
    Option Msg × Option PErr :=
  match exchangeResult reqId writeErr rr with
  | (reply, err0) =>
    match reply, (match reply with
                  | some rep => if rep.truncated then none else err0
                  | none => err0) with
    | _, some e => (none, some e)
    | some rep, none => (some { rep with compress := true, id := reqId }, none)
    | none, none => (none, none)

/-- `dns.MaxMsgSize`. -/
def maxMsgSize : Nat := 65535

/-- `binary.BigEndian.PutUint16` of `uint16(n)` as two bytes. -/
def put16be (n : Nat) : List Nat := [n % 65536 / 256, n % 256]

/-- The package-level `Write` (part_003 lines 246-266) for a stream
connection: reject payloads shorter than 2 bytes or longer than
`dns.MaxMsgSize` without writing, otherwise write the 2-byte big-endian
length prefix followed by the payload; a datagram connection gets the
raw payload.  The result is the byte sequence that reaches the
connection. -/
def proxyWrite (isStream : Bool) (p : List Nat) : Except PErr (List Nat) :=
  if isStream then
    if p.length < 2 then Except.error PErr.errShortBuffer
    else if p.length > maxMsgSize then Except.error PErr.errTooLarge
    else Except.ok (put16be p.length ++ p)
  else Except.ok p

/-- `WriteMsg` (part_003 lines 235-244): pack the message, then send the
bytes with `co.Write(out)` — the connection's own raw write method, not
the package `Write` above — so the packed bytes reach the wire
unchanged on every transport, with no length prefix and no size
check. -/
def writeMsgBytes (packRes : Except PErr (List Nat)) : Except PErr (List Nat) :=
  match packRes with
  | Except.error e => Except.error e
  | Except.ok out => Except.ok out

/-- The EDNS size selection at the top of `Client.exchange` (lines
84-89); `udpsize` arrives as `dns.MinMsgSize` (512) from `Exchange`. -/
def exchangeUdpsize (m : Msg) (udpsize : Nat) : Nat :=
  if m.hasEdns = true ∧ 512 ≤ m.udpSize then m.udpSize else udpsize

/-- The datagram receive-buffer allocation in `readMsgHeader` (lines
146-151): `if udpsize > dns.MinMsgSize { make([]byte, udpsize) } else
{ make([]byte, dns.MinMsgSize) }`. -/
def recvBufLen (udpsize : Nat) : Nat :=
  if 512 < udpsize then udpsize else 512

/-- A reader is embedded as the schedule of results its successive
`Read` calls produce: each entry is either an error or the bytes that
call delivers.  An exhausted schedule means the next read blocks
forever. -/
def ReadSched : Type := List (Except PErr (List Nat))

/-- `tcpMsgLen` (part_003 lines 173-187): one single `Read` into a
2-byte buffer; an error is returned as is, fewer than 2 delivered bytes
or a decoded length of zero is `dns.ErrShortRead`; no second read ever
happens for the prefix. -/
def tcpMsgLen : ReadSched → Option (Except PErr Nat)
  | [] => none
  | Except.error e :: _ => some (Except.error e)
  | Except.ok chunk :: _ =>
    match chunk.take 2 with
    | [b0, b1] =>
      if 256 * b0 + b1 = 0 then some (Except.error PErr.errShortRead)
      else some (Except.ok (256 * b0 + b1))
    | _ => some (Except.error PErr.errShortRead)

/-- The accumulation loop of `tcpRead`: while fewer than `size` bytes
are collected, read again into the remaining buffer; an error returns
the bytes collected so far together with the error. -/
def tcpReadLoop (size : Nat) : ReadSched → List Nat → Option (List Nat × Option PErr)
  | [], acc => if size ≤ acc.length then some (acc, none) else none
  | r :: rest, acc =>
    if size ≤ acc.length then some (acc, none)
    else
      match r with
      | Except.error e => some (acc, some e)
      | Except.ok chunk => tcpReadLoop size rest (acc ++ chunk.take (size - acc.length))

/-- `tcpRead` (part_003 lines 190-203): a first read, then the
accumulation loop until the `size`-byte buffer is full. -/
def tcpRead (reads : ReadSched) (size : Nat) : Option (List Nat × Option PErr) :=
  match reads with
  | [] => none
  | Except.error e :: _ => some ([], some e)
  | Except.ok chunk :: rest => tcpReadLoop size rest (chunk.take size)

/-- The stream branch of `readMsgHeader` (lines 135-145) together with
the common short-body check (lines 155-161): read the 2-byte length,
read that many body bytes, and reject a body shorter than 12 bytes with
`dns.ErrShortRead`. -/
def readMsgHeaderStream (reads : ReadSched) : Option (Except PErr (List Nat)) :=
  match tcpMsgLen reads with
  | none => none
  | some (Except.error e) => some (Except.error e)
  | some (Except.ok l) =>
    match tcpRead (reads.drop 1) l with
    | none => none
    | some (_, some e) => some (Except.error e)
    | some (bytes, none) =>
      if bytes.length < 12 then some (Except.error PErr.errShortRead)
      else some (Except.ok bytes)

/-- The package-level `Read` (part_003 lines 206-232).  The datagram
branch of the Go source is `n, err = Read(co, p)` — a recursive call to
this same package function with unchanged arguments, not a call to the
connection's read method — so that branch never performs a read.  `fuel`
bounds the recursion depth; `none` means the call never returns. -/
def readConn : Nat → Bool → ReadSched → Nat → Option (Except PErr Nat)
  | 0, _, _, _ => none
  | fuel + 1, isStream, reads, buflen =>
    if buflen < 2 then some (Except.error PErr.errShortBuffer)
    else if isStream then
      match tcpMsgLen reads with
      | none => none
      | some (Except.error e) => some (Except.error e)
      | some (Except.ok l) =>
        if buflen < l then some (Except.error PErr.errShortBuffer)
        else
          match tcpRead (reads.drop 1) l with
          | none => none
          | some (_, some e) => some (Except.error e)
          | some (bytes, none) => some (Except.ok bytes.length)
    else readConn fuel isStream reads buflen

/-! ## Claim theorems -/

theorem runZone_invoked (hs : Nat → ChainRes) (z : Nat) :
    (runZone hs z).invoked = [z] := by
  unfold runZone
  cases hs z <;> rfl

theorem runZone_panicked_errWrites (hs : Nat → ChainRes) (z1 z : Nat)
    (hinv : (runZone hs z1).invoked = [z]) (hp : hs z = ChainRes.panicked) :
    (runZone hs z1).errWrites = [2] := by
  rw [runZone_invoked hs z1] at hinv
  simp only [List.cons.injEq, and_true] at hinv
  subst hinv
  unfold runZone
  rw [hp]

theorem serveDNS_hit (zones : List (List Char × Nat)) (hs : Nat → ChainRes)
    (r : DnsRequest) (z : Nat) (he : r.ednsOk = true)
    (hd : dispatchLoop zones r.qname (decide (r.qtype = 43)) = some z) :
    serveDNS zones hs r = runZone hs z := by
  unfold serveDNS
  rw [if_pos he, hd]

theorem serveDNS_root (zones : List (List Char × Nat)) (hs : Nat → ChainRes)
    (r : DnsRequest) (z : Nat) (he : r.ednsOk = true)
    (hd : dispatchLoop zones r.qname (decide (r.qtype = 43)) = none)
    (hz : zlookup zones ['.'] = some z) :
    serveDNS zones hs r = runZone hs z := by
  unfold serveDNS
  rw [if_pos he, hd, hz]

theorem serveDNS_refused (zones : List (List Char × Nat)) (hs : Nat → ChainRes)
    (r : DnsRequest) (he : r.ednsOk = true)
    (hd : dispatchLoop zones r.qname (decide (r.qtype = 43)) = none)
    (hz : zlookup zones ['.'] = none) :
    serveDNS zones hs r = ⟨false, [], [5]⟩ := by
  unfold serveDNS
  rw [if_pos he, hd, hz]

theorem serveDNS_badVers (zones : List (List Char × Nat)) (hs : Nat → ChainRes)
    (r : DnsRequest) (he : ¬r.ednsOk = true) :
    serveDNS zones hs r = ⟨true, [], []⟩ := by
  unfold serveDNS
  rw [if_neg he]

/-- Claim C1: for a supported-EDNS, non-DS query, the dispatcher walks
the candidate offsets of the query name from the full name toward the
root, lower-cases each candidate for the registry lookup, and invokes
exactly the chain of the first (longest-suffix) registered match; in
particular a name under both a registered subzone and a registered
parent zone goes to the subzone chain, since its offset comes first. -/
theorem c1_dispatch_longest_suffix (zones : List (List Char × Nat)) (hs : Nat → ChainRes)
    (r : DnsRequest) (off z : Nat)
    (hEdns : r.ednsOk = true) (hDS : r.qtype ≠ 43)
    (hmem : off ∈ candidateOffsets r.qname)
    (hhit : zlookup zones (lowerName (r.qname.drop off)) = some z)
    (hmiss : ∀ o ∈ candidateOffsets r.qname, o < off →
      zlookup zones (lowerName (r.qname.drop o)) = none) :
    (serveDNS zones hs r).invoked = [z] := by
  have hscan := dispatchLoopF_eq_findSome zones r.qname (r.qname.length + 1) 0
    (by omega) (by omega)
  have hfirst := findSome_first (fun o => zlookup zones (lowerName (r.qname.drop o)))
    (candidateOffsets r.qname) (candidateOffsetsF_pairwise r.qname (r.qname.length + 1) 0)
    off z hmem hhit hmiss
  have hloop : dispatchLoop zones r.qname (decide (r.qtype = 43)) = some z := by
    rw [decide_eq_false hDS]
    unfold dispatchLoop
    rw [hscan]
    exact hfirst
  rw [serveDNS_hit zones hs r z hEdns hloop]
  exact runZone_invoked hs z

/-- Witness for C1: with zones "a.ex." (1) and "ex." (2) registered, the
mixed-case query "W.a.Ex." is routed to zone 1, the longest suffix. -/
theorem c1_witness :
    (serveDNS [("a.ex.".toList, 1), ("ex.".toList, 2)] (fun _ => ChainRes.normal 0)
      ⟨"W.a.Ex.".toList, 1, true⟩).invoked = [1] :=
  c1_dispatch_longest_suffix [("a.ex.".toList, 1), ("ex.".toList, 2)]
    (fun _ => ChainRes.normal 0) ⟨"W.a.Ex.".toList, 1, true⟩ 2 1
    rfl (by decide) (by decide) (by decide) (by decide)

/-- Claim C2 counterexample: with both the apex "ex.org." (zone 1) and
its parent "org." (zone 2) registered and no root entry, a DS-type
(43) query at the apex is NOT routed to the parent chain as the claim
states: no chain runs at all and REFUSED (5) is written. -/
theorem c2_counterexample :
    (serveDNS [("ex.org.".toList, 1), ("org.".toList, 2)] (fun _ => ChainRes.normal 0)
        ⟨"ex.org.".toList, 43, true⟩).invoked ≠ [2]
    ∧ serveDNS [("ex.org.".toList, 1), ("org.".toList, 2)] (fun _ => ChainRes.normal 0)
        ⟨"ex.org.".toList, 43, true⟩ = ⟨false, [], [5]⟩ := by
  constructor
  · decide
  · decide

/-- Claim C2 (amended): the DS-type guard sits inside the walking loop,
so a DS query skips every registered suffix match — the apex and the
parent alike — and falls through to the root catch-all when one is
registered, else is refused; the parent zone chain is never selected by
the walk. -/
theorem c2_amended_ds_skips_all (zones : List (List Char × Nat)) (hs : Nat → ChainRes)
    (q : List Char) :
    (serveDNS zones hs ⟨q, 43, true⟩).invoked =
      (match zlookup zones ['.'] with
       | some z => [z]
       | none => []) := by
  have hd : dispatchLoop zones q (decide ((43 : Nat) = 43)) = none := by
    rw [show (decide ((43 : Nat) = 43)) = true from rfl]
    exact dispatchLoopF_ds zones q (q.length + 1) 0
  cases hz : zlookup zones ['.'] with
  | some z =>
    rw [serveDNS_root zones hs ⟨q, 43, true⟩ z rfl hd hz]
    exact runZone_invoked hs z
  | none =>
    rw [serveDNS_refused zones hs ⟨q, 43, true⟩ rfl hd hz]

/-- Claim C3: in the proxy client, a truncated reply is returned to the
caller as a successful result with the error suppressed; a reply whose
id differs from the request id makes `Client.exchange` return
`dns.ErrId`, and (the reply not being truncated) the caller gets a hard
error and no reply. -/
theorem c3_truncation_and_id_check (reqId : Nat) (writeErr : Option PErr) (rr : ReadRes)
    (rep : Msg) :
    ((exchangeResult reqId writeErr rr).1 = some rep → rep.truncated = true →
      clientServeDNS reqId writeErr rr = (some { rep with compress := true, id := reqId }, none))
    ∧ (rr = ReadRes.ok rep → rep.id ≠ reqId → rep.truncated = false →
      (exchangeResult reqId none rr).2 = some PErr.errId ∧
      clientServeDNS reqId none rr = (none, some PErr.errId)) := by
  constructor
  · intro h1 h2
    cases writeErr with
    | some e => simp [exchangeResult] at h1
    | none =>
      cases rr with
      | ok m =>
        by_cases hid : m.id = reqId
        · simp [exchangeResult, hid] at h1
          subst h1
          simp [clientServeDNS, exchangeResult, hid, h2]
        · simp [exchangeResult, hid] at h1
          subst h1
          simp [clientServeDNS, exchangeResult, hid, h2]
      | truncErr m =>
        simp [exchangeResult] at h1
        subst h1
        simp [clientServeDNS, exchangeResult, h2]
      | fail e => simp [exchangeResult] at h1
  · intro hr hid htr
    subst hr
    refine ⟨by simp [exchangeResult, hid], ?_⟩
    simp [clientServeDNS, exchangeResult, hid, htr]

/-- Witness for C3: a truncated reply with a foreign id (9 vs request 7)
is returned successfully with the id rewritten; a non-truncated reply
with the same mismatch is a hard `ErrId`. -/
theorem c3_witness :
    clientServeDNS 7 none (ReadRes.ok ⟨9, true, false, "x.", 1, 1, false, 0⟩) =
      (some ⟨7, true, true, "x.", 1, 1, false, 0⟩, none)
    ∧ (exchangeResult 7 none (ReadRes.ok ⟨9, false, false, "x.", 1, 1, false, 0⟩)).2 =
        some PErr.errId :=
  ⟨(c3_truncation_and_id_check 7 none (ReadRes.ok ⟨9, true, false, "x.", 1, 1, false, 0⟩)
      ⟨9, true, false, "x.", 1, 1, false, 0⟩).1 rfl rfl,
   ((c3_truncation_and_id_check 7 none (ReadRes.ok ⟨9, false, false, "x.", 1, 1, false, 0⟩)
      ⟨9, false, false, "x.", 1, 1, false, 0⟩).2 rfl (by decide) rfl).1⟩

/-- Claim C4 evaluation: the singleflight key does ignore the query id
and the EDNS fields, but it is built from the unnormalized question
name, so two queries whose names differ only in letter case (same type
and class) get DIFFERENT keys, contrary to the claim. -/
theorem c4_dedup_key_case :
    dedupKey ⟨1, false, false, "example.org.", 1, 1, false, 0⟩ =
      dedupKey ⟨2, false, false, "example.org.", 1, 1, true, 4096⟩
    ∧ dedupKey ⟨1, false, false, "EXAMPLE.org.", 1, 1, false, 0⟩ ≠
      dedupKey ⟨1, false, false, "example.org.", 1, 1, false, 0⟩ :=
  ⟨rfl, by decide⟩

/-- Claim C5 evaluation: a query received over "tcp" does borrow from
the upstream host's stream pool, but that pool's dialer was built with
network "udp" (NewTCPPool), so the forwarding connection is a datagram
socket, not a stream one. -/
theorem c5_tcp_pool_network :
    selectPool "tcp" (mkUpstreamHost "203.0.113.9:53") = NewTCPPool "203.0.113.9:53"
    ∧ (NewTCPPool "203.0.113.9:53").network = "udp"
    ∧ (selectPool "tcp" (mkUpstreamHost "203.0.113.9:53")).network ≠ "tcp" :=
  ⟨rfl, rfl, by decide⟩

/-- Claim C6 evaluation: `WriteMsg` hands the packed bytes to the raw
connection write, so an oversize (65536-byte) serialized message is
written unchanged with no error, and an ordinary 12-byte message is
written without the 2-byte length prefix, while the package's framing
`Write` — which the message path never calls — would have rejected the
former and framed the latter. -/
theorem c6_writemsg_bypasses_framing :
    writeMsgBytes (Except.ok (List.replicate 65536 0)) = Except.ok (List.replicate 65536 0)
    ∧ maxMsgSize < (List.replicate 65536 (0 : Nat)).length
    ∧ proxyWrite true (List.replicate 65536 0) = Except.error PErr.errTooLarge
    ∧ writeMsgBytes (Except.ok [0, 0, 0, 0, 0, 0, 0, 0, 0, 0, 0, 0]) =
        Except.ok [0, 0, 0, 0, 0, 0, 0, 0, 0, 0, 0, 0]
    ∧ ([0, 0, 0, 0, 0, 0, 0, 0, 0, 0, 0, 0] : List Nat) ≠
        put16be 12 ++ [0, 0, 0, 0, 0, 0, 0, 0, 0, 0, 0, 0] := by
  have hlen : (List.replicate 65536 (0 : Nat)).length = 65536 := List.length_replicate _ _
  refine ⟨rfl, ?_, ?_, rfl, by decide⟩
  · rw [hlen]
    decide
  · have h1 : ¬((List.replicate 65536 (0 : Nat)).length < 2) := by rw [hlen]; decide
    have h2 : (List.replicate 65536 (0 : Nat)).length > maxMsgSize := by rw [hlen]; decide
    unfold proxyWrite
    rw [if_pos rfl, if_neg h1, if_pos h2]

/-- Claim C7 evaluation: the receive-buffer sizing matches the claim
(the advertised EDNS0 size when at least 512, else 512), and the stream
path rejects a body shorter than 12 bytes with a short-read error; but
the datagram branch of `Read` recurses on itself instead of reading the
connection, so it never consumes a packet: for every recursion budget
the call fails to return. -/
theorem c7_datagram_read :
    (∀ m : Msg, recvBufLen (exchangeUdpsize m 512) =
      (if m.hasEdns = true ∧ 512 ≤ m.udpSize then m.udpSize else 512))
    ∧ (∀ fuel : Nat, readConn fuel false [Except.ok [1, 2, 3]] 512 = none)
    ∧ readMsgHeaderStream [Except.ok [0, 3], Except.ok [1, 2, 3]] =
        some (Except.error PErr.errShortRead) := by
  refine ⟨?_, ?_, rfl⟩
  · intro m
    unfold exchangeUdpsize recvBufLen
    by_cases hC : m.hasEdns = true ∧ 512 ≤ m.udpSize
    · rw [if_pos hC]
      rcases hC with ⟨h1, h2⟩
      by_cases hu : 512 < m.udpSize
      · rw [if_pos hu]
      · rw [if_neg hu]
        omega
    · rw [if_neg hC]
      simp
  · intro fuel
    induction fuel with
    | zero => rfl
    | succ fuel ih =>
      unfold readConn
      rw [if_neg (by decide : ¬(512 < 2)), if_neg (by decide : ¬(false = true))]
      exact ih

/-- Claim C8: whenever the chain the dispatcher invoked panics, the
deferred recovery boundary writes a ServerFailure (2) response; the
dispatcher itself is a total function of the request, so no request
fault escapes it. -/
theorem c8_panic_caught (zones : List (List Char × Nat)) (hs : Nat → ChainRes)
    (r : DnsRequest) (z : Nat)
    (hinv : (serveDNS zones hs r).invoked = [z])
    (hp : hs z = ChainRes.panicked) :
    (serveDNS zones hs r).errWrites = [2] := by
  by_cases he : r.ednsOk = true
  · cases hd : dispatchLoop zones r.qname (decide (r.qtype = 43)) with
    | some z1 =>
      rw [serveDNS_hit zones hs r z1 he hd] at hinv ⊢
      exact runZone_panicked_errWrites hs z1 z hinv hp
    | none =>
      cases hz : zlookup zones ['.'] with
      | some z1 =>
        rw [serveDNS_root zones hs r z1 he hd hz] at hinv ⊢
        exact runZone_panicked_errWrites hs z1 z hinv hp
      | none =>
        rw [serveDNS_refused zones hs r he hd hz] at hinv
        simp at hinv
  · rw [serveDNS_badVers zones hs r he] at hinv
    simp at hinv

/-- Witness for C8: the only zone's chain panics on "a.ex." and the
dispatcher writes rcode 2 (ServerFailure). -/
theorem c8_witness :
    (serveDNS [("ex.".toList, 1)] (fun _ => ChainRes.panicked)
      ⟨"a.ex.".toList, 1, true⟩).errWrites = [2] :=
  c8_panic_caught [("ex.".toList, 1)] (fun _ => ChainRes.panicked)
    ⟨"a.ex.".toList, 1, true⟩ 1 (by decide) rfl

/-- Claim C9: when no lower-cased candidate suffix of the query name is
registered and there is no root catch-all, the dispatcher writes
REFUSED (5) and invokes no chain. -/
theorem c9_refused_no_chain (zones : List (List Char × Nat)) (hs : Nat → ChainRes)
    (r : DnsRequest) (hEdns : r.ednsOk = true)
    (hmiss : ∀ o ∈ candidateOffsets r.qname, zlookup zones (lowerName (r.qname.drop o)) = none)
    (hroot : zlookup zones ['.'] = none) :
    serveDNS zones hs r = ⟨false, [], [5]⟩ := by
  have hnone : dispatchLoop zones r.qname (decide (r.qtype = 43)) = none := by
    cases hb : decide (r.qtype = 43) with
    | true => exact dispatchLoopF_ds zones r.qname (r.qname.length + 1) 0
    | false =>
      unfold dispatchLoop
      rw [dispatchLoopF_eq_findSome zones r.qname (r.qname.length + 1) 0 (by omega) (by omega)]
      exact findSome_of_forall_none _ _ hmiss
  exact serveDNS_refused zones hs r hEdns hnone hroot

/-- Witness for C9: zone "ex." is registered, the query "a.net." matches
nothing and there is no root entry, so the result is refused with no
chain invoked. -/
theorem c9_witness :
    serveDNS [("ex.".toList, 1)] (fun _ => ChainRes.normal 0) ⟨"a.net.".toList, 1, true⟩ =
      ⟨false, [], [5]⟩ :=
  c9_refused_no_chain [("ex.".toList, 1)] (fun _ => ChainRes.normal 0)
    ⟨"a.net.".toList, 1, true⟩ rfl (by decide) (by decide)

/-- Claim C10: a single read delivering fewer than 2 prefix bytes, or a
decoded length of zero, is an immediate short-read error — the prefix
is never accumulated across later reads — whereas the message body is
accumulated across partial reads until the announced length is
collected. -/
theorem c10_prefix_single_read :
    (∀ (c : List Nat) (rest : ReadSched), c.length < 2 →
      tcpMsgLen (Except.ok c :: rest) = some (Except.error PErr.errShortRead))
    ∧ (∀ rest : ReadSched,
        tcpMsgLen (Except.ok [0, 0] :: rest) = some (Except.error PErr.errShortRead))
    ∧ tcpRead [Except.ok [1, 2], Except.ok [3], Except.ok [4, 5]] 5 =
        some ([1, 2, 3, 4, 5], none) := by
  refine ⟨?_, fun rest => rfl, rfl⟩
  intro c rest hc
  rcases c with _ | ⟨b0, c⟩
  · rfl
  · rcases c with _ | ⟨b1, c⟩
    · rfl
    · simp only [List.length_cons] at hc
      omega

/-- Witness for C10: a single read delivering one prefix byte is an
immediate short-read error even though a further read is scheduled. -/
theorem c10_witness :
    tcpMsgLen [Except.ok [5], Except.ok [0]] = some (Except.error PErr.errShortRead) :=
  c10_prefix_single_read.1 [5] [Except.ok [0]] (by decide)
